import Mathlib

/-!
Verification development for the N-up PDF imposition engine
(`impose8up` and `isProbablyPdf` from `src/src/app/imposition/page.tsx`,
driven by the HTTP route handler).

The engine is shallowly embedded: byte buffers are lists of naturals,
the external pdf-lib parser (`PDFDocument.load`) is a parameter
`load : Bytes → LoadResult`, the numeric type is `ℚ` (the TS code uses
IEEE doubles; all claims are about the exact arithmetic structure of the
formulas), and a parsed document is its list of page sizes.  Object
identity of a `PDFDocument` (the key of the `Map`s in the assembler) is
modelled by the index of the input file that produced it (`docId`): each
`PDFDocument.load` call creates a fresh object, one per accepted input.
The serialized output (`out.save()`) is modelled as the list of sheets
with their placements; `sheets` reported is `out.getPageCount()`, i.e.
the number of `addPage` calls.
-/

namespace Impose

/-- A byte buffer (`Uint8Array`): a list of byte values. -/
abbrev Bytes := List Nat

/-- One uploaded input: `{ name: string; data: Uint8Array }`. -/
structure InputFile where
  name : String
  data : Bytes
deriving DecidableEq

/-- A page of a parsed document: its physical width/height in points. -/
structure PdfPage where
  width : ℚ
  height : ℚ
deriving DecidableEq

instance : Inhabited PdfPage := ⟨⟨0, 0⟩⟩

/-- A parsed document (pdf-lib `PDFDocument`): its pages.
`getPageCount()` is `pages.length`; `getPage i` is `pages[i]`. -/
structure PdfDoc where
  pages : List PdfPage
deriving DecidableEq

instance : Inhabited PdfDoc := ⟨⟨[]⟩⟩

/-- Outcome of `PDFDocument.load` (the external parser): success with a
parsed document, or a thrown error with its message. -/
inductive LoadResult where
  | ok (doc : PdfDoc)
  | err (msg : String)
deriving DecidableEq

/-- `ImpositionOptions.paper`. -/
inductive Paper where
  | A4
  | A3
deriving DecidableEq

/-- `ImpositionOptions.orientation`. -/
inductive Orientation where
  | landscape
  | portrait
deriving DecidableEq

/-- `ImpositionOptions.layout`: `"4x2" | "2x4"`. -/
inductive Layout where
  | l4x2
  | l2x4
deriving DecidableEq

/-- `ImpositionOptions`. -/
structure ImpositionOptions where
  paper : Paper
  orientation : Orientation
  layout : Layout
  margin_mm : ℚ
  gap_mm : ℚ
deriving DecidableEq

/-- `BadFile`: one rejection record. -/
structure BadFile where
  path : String
  error : String
deriving DecidableEq

instance : Inhabited BadFile := ⟨⟨"", ""⟩⟩

/-- `PAPER_SIZES`: canonical (width, height) of each paper kind, points. -/
def PAPER_SIZES : Paper → ℚ × ℚ
  | .A4 => (595, 842)
  | .A3 => (842, 1191)

/-- `MM_TO_PT = 72 / 25.4`. -/
def MM_TO_PT : ℚ := 72 / 25.4

/-- `isProbablyPdf`: buffers shorter than 1024 bytes fail; otherwise the
first five bytes must be the `%PDF-` magic. -/
def isProbablyPdf (buffer : Bytes) : Bool :=
  if buffer.length < 1024 then false
  else
    buffer.getD 0 0 == 0x25 && buffer.getD 1 0 == 0x50 &&
    buffer.getD 2 0 == 0x44 && buffer.getD 3 0 == 0x46 &&
    buffer.getD 4 0 == 0x2d

/-- One element of `allPages`: `{ doc, pageIndex }`, with `docId` the
identity of the `PDFDocument` object (index of the input that produced
it). -/
structure PageRef where
  docId : Nat
  doc : PdfDoc
  pageIndex : Nat
deriving DecidableEq

instance : Inhabited PageRef := ⟨⟨0, default, 0⟩⟩

/-- The page refs contributed by one accepted document: one per page,
in increasing page-index order. -/
def docPages (docId : Nat) (doc : PdfDoc) : List PageRef :=
  (List.range doc.pages.length).map (fun i => ⟨docId, doc, i⟩)

/-- The validation/flattening loop of `impose8up` (`for (const file of
inputFiles)`), processing inputs in order starting at input index `idx`;
returns (`allPages`, `bad`). -/
def flattenGo (load : Bytes → LoadResult) :
    List InputFile → Nat → List PageRef × List BadFile
  | [], _ => ([], [])
  | f :: rest, idx =>
    let (ps, bs) := flattenGo load rest (idx + 1)
    if !isProbablyPdf f.data then
      (ps, ⟨f.name, "Not a valid PDF (bad header or too small)"⟩ :: bs)
    else
      match load f.data with
      | .err msg => (ps, ⟨f.name, msg⟩ :: bs)
      | .ok doc =>
        if doc.pages.length = 0 then
          (ps, ⟨f.name, "0 pages"⟩ :: bs)
        else
          (docPages idx doc ++ ps, bs)

/-- `allPages` of a run. -/
def allPagesOf (load : Bytes → LoadResult) (files : List InputFile) : List PageRef :=
  (flattenGo load files 0).1

/-- `bad` of a run. -/
def badOf (load : Bytes → LoadResult) (files : List InputFile) : List BadFile :=
  (flattenGo load files 0).2

/-- Sheet width and height: canonical paper size, axes swapped when
landscape (`[w, h] = [h, w]`). -/
def sheetWH (o : ImpositionOptions) : ℚ × ℚ :=
  let wh := PAPER_SIZES o.paper
  if o.orientation = .landscape then (wh.2, wh.1) else wh

/-- `[cols, rows] = layout === "4x2" ? [4, 2] : [2, 4]`. -/
def gridCR (l : Layout) : Nat × Nat :=
  match l with
  | .l4x2 => (4, 2)
  | .l2x4 => (2, 4)

/-- `margin = margin_mm * MM_TO_PT`. -/
def marginPt (o : ImpositionOptions) : ℚ := o.margin_mm * MM_TO_PT

/-- `gap = gap_mm * MM_TO_PT`. -/
def gapPt (o : ImpositionOptions) : ℚ := o.gap_mm * MM_TO_PT

/-- `cellW = (w - 2*margin - (cols-1)*gap) / cols`. -/
def cellW (o : ImpositionOptions) : ℚ :=
  ((sheetWH o).1 - 2 * marginPt o - (((gridCR o.layout).1 : ℚ) - 1) * gapPt o) /
    ((gridCR o.layout).1 : ℚ)

/-- `cellH = (h - 2*margin - (rows-1)*gap) / rows`. -/
def cellH (o : ImpositionOptions) : ℚ :=
  ((sheetWH o).2 - 2 * marginPt o - (((gridCR o.layout).2 : ℚ) - 1) * gapPt o) /
    ((gridCR o.layout).2 : ℚ)

/-- `x = margin + col * (cellW + gap)` for column `c`. -/
def cellX (o : ImpositionOptions) (c : Nat) : ℚ :=
  marginPt o + (c : ℚ) * (cellW o + gapPt o)

/-- `y = h - margin - (row + 1) * cellH - row * gap` for row `r`
(pdf-lib's origin is bottom-left, so the row order is inverted). -/
def cellY (o : ImpositionOptions) (r : Nat) : ℚ :=
  (sheetWH o).2 - marginPt o - ((r : ℚ) + 1) * cellH o - (r : ℚ) * gapPt o

/-- Cell origin for slot `j` of a sheet:
`row = Math.floor(j / cols)`, `col = j % cols`. -/
def cellPos (o : ImpositionOptions) (j : Nat) : ℚ × ℚ :=
  (cellX o (j % (gridCR o.layout).1), cellY o (j / (gridCR o.layout).1))

/-- The rectangle actually drawn for one page. -/
structure Rect where
  x : ℚ
  y : ℚ
  width : ℚ
  height : ℚ
deriving DecidableEq

/-- Scale-and-center computation for slot `j` and a source page of size
`src`: `scale = min(cellW/srcW, cellH/srcH)`, scaled size, offset by half
the leftover space on each axis. -/
def placeRect (o : ImpositionOptions) (j : Nat) (src : PdfPage) : Rect :=
  let x := (cellPos o j).1
  let y := (cellPos o j).2
  let scale := min (cellW o / src.width) (cellH o / src.height)
  let scaledW := src.width * scale
  let scaledH := src.height * scale
  ⟨x + (cellW o - scaledW) / 2, y + (cellH o - scaledH) / 2, scaledW, scaledH⟩

/-- One `sheet.drawPage(embeddedPage, ...)` call: which embedded page
was drawn (identified by its source document and source page index,
with its native size) and the rectangle it was drawn into. -/
structure Placement where
  docId : Nat
  pageIndex : Nat
  src : PdfPage
  rect : Rect
deriving DecidableEq

instance : Inhabited Placement := ⟨⟨0, 0, default, ⟨0, 0, 0, 0⟩⟩⟩

/-- `neededByDoc.get(doc)` for the object `doc` identified by `d`: the
page indices needed from `doc` in this chunk, in chunk order. -/
def neededByDoc (chunk : List PageRef) (d : Nat) : List PageRef :=
  chunk.filter (fun p => p.docId == d)

/-- `out.embedPages(indices.map(idx => doc.getPage(idx)))` for the doc
identified by `d`: one embedded page per needed index, in order.  An
embedded page is a copy of a specific source page, so it is modelled as
the pair (source page index, source page). -/
def embeddedMap (chunk : List PageRef) (d : Nat) : List (Nat × PdfPage) :=
  (neededByDoc chunk d).map (fun p => (p.pageIndex, p.doc.pages.getD p.pageIndex default))

/-- The inner placement loop (`for (let j = 0; ...)`) over the remaining
part of the chunk: `emb` is the per-document embedded-page table built
from the whole chunk, `j` the current slot index, `consumed` the
`consumedByDoc` map (`consumedByDoc.get(doc) || 0` is `consumed d`). -/
def placeLoop (o : ImpositionOptions) (emb : Nat → List (Nat × PdfPage)) :
    List PageRef → Nat → (Nat → Nat) → List Placement
  | [], _, _ => []
  | p :: rest, j, consumed =>
    let c := consumed p.docId
    let embedded := (emb p.docId).getD c (0, default)
    ⟨p.docId, embedded.1, embedded.2, placeRect o j embedded.2⟩ ::
      placeLoop o emb rest (j + 1)
        (fun d => if d = p.docId then c + 1 else consumed d)

/-- One output sheet: `out.addPage([w, h])` plus its placements. -/
structure Sheet where
  width : ℚ
  height : ℚ
  placements : List Placement
deriving DecidableEq

instance : Inhabited Sheet := ⟨⟨0, 0, []⟩⟩

/-- Assembly of one chunk into one sheet. -/
def makeSheet (o : ImpositionOptions) (chunk : List PageRef) : Sheet :=
  ⟨(sheetWH o).1, (sheetWH o).2,
    placeLoop o (embeddedMap chunk) chunk 0 (fun _ => 0)⟩

/-- Consecutive chunks of `n` elements (`allPages.slice(i, i + perSheet)`
with `i` stepping by `perSheet`); the engine only uses `n = cols*rows ≥ 1`,
for which `x :: xs.take (n-1)` is `(x :: xs).take n`. -/
def chunksOf {α : Type} (n : Nat) : List α → List (List α)
  | [] => []
  | x :: xs => (x :: xs.take (n - 1)) :: chunksOf n (xs.drop (n - 1))
termination_by l => l.length
decreasing_by
  simp only [List.length_cons, List.length_drop]
  omega

/-- `ImpositionResult`.  `pdfBytes` (the serialized output document) is
modelled as the list of assembled sheets. -/
structure ImpositionResult where
  success : Bool
  pdfBytes : Option (List Sheet)
  total_pages : Option Nat
  sheets : Option Nat
  bad_files : List BadFile
  total_bad : Nat
  error : Option String
deriving DecidableEq

/-- The sheet list built by the chunk loop of a successful run. -/
def sheetsOf (load : Bytes → LoadResult) (files : List InputFile)
    (o : ImpositionOptions) : List Sheet :=
  (chunksOf ((gridCR o.layout).1 * (gridCR o.layout).2) (allPagesOf load files)).map
    (makeSheet o)

/-- `impose8up`. -/
def impose8up (load : Bytes → LoadResult) (files : List InputFile)
    (o : ImpositionOptions) : ImpositionResult :=
  if (allPagesOf load files).length = 0 then
    { success := false
      pdfBytes := none
      total_pages := none
      sheets := none
      bad_files := (badOf load files).take 50
      total_bad := (badOf load files).length
      error := some "Aucun PDF valide n'a pu être ouvert." }
  else
    { success := true
      pdfBytes := some (sheetsOf load files o)
      total_pages := some (allPagesOf load files).length
      sheets := some (sheetsOf load files o).length
      bad_files := (badOf load files).take 50
      total_bad := (badOf load files).length
      error := none }

/-! ### Per-file validation characterization -/

/-- Outcome of validation for a single input, as the flattening loop
decides it: `some doc` when the input is accepted. -/
def acceptDoc (load : Bytes → LoadResult) (f : InputFile) : Option PdfDoc :=
  if !isProbablyPdf f.data then none
  else
    match load f.data with
    | .err _ => none
    | .ok doc => if doc.pages.length = 0 then none else some doc

/-- The rejection reason recorded for a single input, when rejected. -/
def rejectReason (load : Bytes → LoadResult) (f : InputFile) : Option String :=
  if !isProbablyPdf f.data then some "Not a valid PDF (bad header or too small)"
  else
    match load f.data with
    | .err msg => some msg
    | .ok doc => if doc.pages.length = 0 then some "0 pages" else none

/-- The flattened page list, as the concatenation over inputs in supplied
order of each accepted document's pages in increasing index order. -/
def flattenSpec (load : Bytes → LoadResult) :
    List InputFile → Nat → List PageRef
  | [], _ => []
  | f :: rest, idx =>
    (match acceptDoc load f with
     | some doc => docPages idx doc
     | none => []) ++ flattenSpec load rest (idx + 1)

/-- The rejection records, one per rejected input, in input order. -/
def badSpec (load : Bytes → LoadResult) : List InputFile → List BadFile
  | [] => []
  | f :: rest =>
    (match rejectReason load f with
     | some msg => [⟨f.name, msg⟩]
     | none => []) ++ badSpec load rest

theorem flattenGo_eq (load : Bytes → LoadResult) :
    ∀ (files : List InputFile) (idx : Nat),
      flattenGo load files idx = (flattenSpec load files idx, badSpec load files)
  | [], _ => rfl
  | f :: rest, idx => by
    have ih := flattenGo_eq load rest (idx + 1)
    simp only [flattenGo, flattenSpec, badSpec, acceptDoc, rejectReason, ih]
    cases h1 : isProbablyPdf f.data with
    | false => simp
    | true =>
      simp only [Bool.not_true, Bool.false_eq_true, if_false]
      cases h2 : load f.data with
      | err msg => simp
      | ok doc =>
        by_cases h3 : doc.pages.length = 0 <;> simp [h3]

theorem allPagesOf_eq (load : Bytes → LoadResult) (files : List InputFile) :
    allPagesOf load files = flattenSpec load files 0 := by
  simp [allPagesOf, flattenGo_eq]

theorem badOf_eq (load : Bytes → LoadResult) (files : List InputFile) :
    badOf load files = badSpec load files := by
  simp [badOf, flattenGo_eq]

theorem acceptDoc_isNone_iff_rejectReason_isSome
    (load : Bytes → LoadResult) (f : InputFile) :
    (acceptDoc load f).isNone ↔ (rejectReason load f).isSome := by
  simp only [acceptDoc, rejectReason]
  cases isProbablyPdf f.data with
  | false => simp
  | true =>
    cases load f.data with
    | err msg => simp
    | ok doc => by_cases h : doc.pages.length = 0 <;> simp [h]

theorem isProbablyPdf_iff (b : Bytes) :
    isProbablyPdf b = true ↔
      1024 ≤ b.length ∧ b.take 5 = [0x25, 0x50, 0x44, 0x46, 0x2d] := by
  constructor
  · intro h
    simp only [isProbablyPdf] at h
    split at h
    · exact absurd h (by simp)
    · rename_i hlen
      have hlen' : 1024 ≤ b.length := by omega
      refine ⟨hlen', ?_⟩
      simp only [Bool.and_eq_true, beq_iff_eq] at h
      obtain ⟨⟨⟨⟨h0, h1⟩, h2⟩, h3⟩, h4⟩ := h
      match b, hlen' with
      | b0 :: b1 :: b2 :: b3 :: b4 :: rest, _ =>
        simp only [List.getD, List.get?, Option.getD_some] at h0 h1 h2 h3 h4
        simp [List.take, h0, h1, h2, h3, h4]
  · rintro ⟨hlen, htake⟩
    have hb : ∃ b0 b1 b2 b3 b4 rest, b = b0 :: b1 :: b2 :: b3 :: b4 :: rest := by
      match b, hlen with
      | b0 :: b1 :: b2 :: b3 :: b4 :: rest, _ => exact ⟨_, _, _, _, _, _, rfl⟩
    obtain ⟨b0, b1, b2, b3, b4, rest, rfl⟩ := hb
    simp only [List.take, List.cons.injEq] at htake
    obtain ⟨h0, h1, h2, h3, h4, -⟩ := htake
    simp only [isProbablyPdf]
    split
    · omega
    · subst h0 h1 h2 h3 h4; rfl

/-! ### Chunking lemmas -/

theorem perSheet_eq (l : Layout) : (gridCR l).1 * (gridCR l).2 = 8 := by
  cases l <;> rfl

theorem chunksOf_getD8 {α : Type} [Inhabited α] :
    ∀ (k : Nat) (l : List α),
      (chunksOf 8 l).getD k [] = (l.drop (8 * k)).take 8
  | 0, [] => by simp [chunksOf]
  | 0, x :: xs => by simp [chunksOf]
  | k + 1, [] => by simp [chunksOf]
  | k + 1, x :: xs => by
    have ih := chunksOf_getD8 k (xs.drop 7)
    simp only [chunksOf, List.getD_cons_succ, show (8 : Nat) - 1 = 7 from rfl]
    rw [ih, List.drop_drop]
    rw [show 8 * (k + 1) = (7 + 8 * k) + 1 by omega, List.drop_succ_cons]

theorem chunksOf_length8_aux {α : Type} :
    ∀ (fuel : Nat) (l : List α), l.length ≤ fuel →
      (chunksOf 8 l).length = (l.length + 7) / 8
  | _, [], _ => by simp [chunksOf]
  | 0, x :: xs, h => by simp at h
  | fuel + 1, x :: xs, h => by
    have ih := chunksOf_length8_aux fuel (xs.drop 7)
      (by simp only [List.length_drop]; simp at h; omega)
    simp only [chunksOf, List.length_cons, List.length_drop,
      show (8 : Nat) - 1 = 7 from rfl] at ih ⊢
    omega

theorem chunksOf_length8 {α : Type} (l : List α) :
    (chunksOf 8 l).length = (l.length + 7) / 8 :=
  chunksOf_length8_aux l.length l le_rfl

/-! ### Placement-loop characterization -/

/-- The placement slot `j` is supposed to receive when it holds page ref
`p`: page `p.pageIndex` of `p`'s document, scaled and centered into cell
`j`. -/
def mkPlacement (o : ImpositionOptions) (j : Nat) (p : PageRef) : Placement :=
  ⟨p.docId, p.pageIndex, p.doc.pages.getD p.pageIndex default,
    placeRect o j (p.doc.pages.getD p.pageIndex default)⟩

theorem placeLoop_length (o : ImpositionOptions) (emb : Nat → List (Nat × PdfPage)) :
    ∀ (rest : List PageRef) (j : Nat) (consumed : Nat → Nat),
      (placeLoop o emb rest j consumed).length = rest.length
  | [], _, _ => rfl
  | p :: rest, j, consumed => by
    simp only [placeLoop, List.length_cons, placeLoop_length]

/-- Accessing a filtered list at the position given by counting matches
in a prefix recovers the element at the end of that prefix. -/
theorem filter_getD_countP {α : Type} (p : α → Bool) :
    ∀ (l : List α) (j : Nat) (d : α), j < l.length → p (l.getD j d) = true →
      (l.filter p).getD ((l.take j).countP p) d = l.getD j d
  | [], j, d, hj, _ => absurd hj (by simp)
  | x :: xs, 0, d, hj, hp => by
    simp only [List.getD_cons_zero] at hp ⊢
    simp [List.filter_cons, hp]
  | x :: xs, j + 1, d, hj, hp => by
    have ih := filter_getD_countP p xs j d (by simp at hj; omega)
      (by simpa using hp)
    simp only [List.getD_cons_succ] at hp ⊢
    rw [List.take_succ_cons, List.countP_cons]
    cases hx : p x with
    | true => simpa [List.filter_cons, hx] using ih
    | false => simpa [List.filter_cons, hx] using ih

theorem getD_append_cons {α : Type} :
    ∀ (pre : List α) (x : α) (rest : List α) (d : α),
      (pre ++ x :: rest).getD pre.length d = x
  | [], x, rest, d => rfl
  | y :: pre, x, rest, d => by
    simpa using getD_append_cons pre x rest d

/-- The `consumedByDoc`-indexed lookup into the per-document embedded
table recovers exactly the page ref being placed. -/
theorem embeddedMap_getD (chunk pre rest : List PageRef) (p : PageRef)
    (hchunk : chunk = pre ++ p :: rest) :
    (embeddedMap chunk p.docId).getD
        (pre.countP (fun q => q.docId == p.docId)) (0, default)
      = (p.pageIndex, p.doc.pages.getD p.pageIndex default) := by
  subst hchunk
  have hmem : (fun q : PageRef => q.docId == p.docId) p = true := by simp
  have hacc := filter_getD_countP (fun q : PageRef => q.docId == p.docId)
    (pre ++ p :: rest) pre.length default
    (by simp) (by rw [getD_append_cons]; exact hmem)
  rw [List.take_left, getD_append_cons] at hacc
  have hlt : pre.countP (fun q => q.docId == p.docId) <
      ((pre ++ p :: rest).filter (fun q => q.docId == p.docId)).length := by
    rw [List.countP_eq_length_filter, List.filter_append, List.length_append,
      List.filter_cons]
    simp
  rw [embeddedMap, neededByDoc,
    List.getD_eq_getElem _ _ (by simpa using hlt), List.getElem_map,
    ← List.getD_eq_getElem _ default hlt, hacc]

theorem placeLoop_getD (o : ImpositionOptions) (chunk : List PageRef) :
    ∀ (rest pre : List PageRef) (k : Nat), chunk = pre ++ rest → k < rest.length →
      (placeLoop o (embeddedMap chunk) rest pre.length
          (fun d => pre.countP (fun q => q.docId == d))).getD k default
        = mkPlacement o (pre.length + k) (rest.getD k default)
  | [], pre, k, hchunk, hk => absurd hk (by simp)
  | p :: rest, pre, 0, hchunk, hk => by
    simp only [placeLoop, List.getD_cons_zero]
    rw [embeddedMap_getD chunk pre rest p hchunk]
    simp [mkPlacement]
  | p :: rest, pre, k + 1, hchunk, hk => by
    have hupd : (fun d => if d = p.docId
            then pre.countP (fun q => q.docId == p.docId) + 1
            else pre.countP (fun q => q.docId == d))
        = fun d => (pre ++ [p]).countP (fun q => q.docId == d) := by
      funext d
      rw [List.countP_append]
      by_cases hd : d = p.docId
      · subst hd; simp [List.countP_cons]
      · have : (p.docId == d) = false := by
          simp only [beq_eq_false_iff_ne]; omega
        simp [List.countP_cons, hd, this]
    have ih := placeLoop_getD o chunk rest (pre ++ [p]) k
      (by rw [hchunk, List.append_assoc]; rfl)
      (by simp at hk; omega)
    simp only [placeLoop, List.getD_cons_succ]
    rw [hupd]
    rw [show pre.length + 1 = (pre ++ [p]).length by simp]
    rw [ih]
    congr 1
    simp
    omega

theorem makeSheet_placements_getD (o : ImpositionOptions) (chunk : List PageRef)
    (k : Nat) (hk : k < chunk.length) :
    (makeSheet o chunk).placements.getD k default
      = mkPlacement o k (chunk.getD k default) := by
  have h := placeLoop_getD o chunk chunk [] k (by simp) hk
  simpa [makeSheet, List.countP_nil] using h

theorem makeSheet_placements_length (o : ImpositionOptions) (chunk : List PageRef) :
    (makeSheet o chunk).placements.length = chunk.length :=
  placeLoop_length o (embeddedMap chunk) chunk 0 (fun _ => 0)

theorem sheetsOf_length (load : Bytes → LoadResult) (files : List InputFile)
    (o : ImpositionOptions) :
    (sheetsOf load files o).length = ((allPagesOf load files).length + 7) / 8 := by
  rw [sheetsOf, perSheet_eq, List.length_map, chunksOf_length8]

theorem sheetsOf_getD_eq (load : Bytes → LoadResult) (files : List InputFile)
    (o : ImpositionOptions) (k : Nat)
    (hk : k < (chunksOf 8 (allPagesOf load files)).length) :
    (sheetsOf load files o).getD k default
      = makeSheet o ((chunksOf 8 (allPagesOf load files)).getD k []) := by
  rw [sheetsOf, perSheet_eq,
    List.getD_eq_getElem _ _ (by simpa using hk), List.getElem_map,
    ← List.getD_eq_getElem _ ([] : List PageRef) hk]

/-- Global placement lemma: the page at global position `g` of the
flattened list lands on sheet `g / 8`, cell `g % 8`, as itself. -/
theorem sheetsOf_getD (load : Bytes → LoadResult) (files : List InputFile)
    (o : ImpositionOptions) (g : Nat)
    (hg : g < (allPagesOf load files).length) :
    ((sheetsOf load files o).getD (g / 8) default).placements.getD (g % 8) default
      = mkPlacement o (g % 8) ((allPagesOf load files).getD g default) := by
  have hmod : g % 8 < 8 := Nat.mod_lt _ (by omega)
  have hdivmod : 8 * (g / 8) + g % 8 = g := by omega
  have hlen : (chunksOf 8 (allPagesOf load files)).length
      = ((allPagesOf load files).length + 7) / 8 := chunksOf_length8 _
  have hidx : g / 8 < (chunksOf 8 (allPagesOf load files)).length := by
    rw [hlen]; omega
  rw [sheetsOf_getD_eq load files o _ hidx, chunksOf_getD8]
  have hkb : g % 8 <
      (((allPagesOf load files).drop (8 * (g / 8))).take 8).length := by
    simp only [List.length_take, List.length_drop]
    omega
  rw [makeSheet_placements_getD o _ _ hkb]
  congr 1
  rw [List.getD_eq_getElem _ _ hkb, List.getElem_take, List.getElem_drop]
  simp only [hdivmod]
  exact (List.getD_eq_getElem _ _ hg).symm

/-- C1. Per-document page-consumption correctness: for a run whose
flattened list has the ref `(D, i)` at global position `g`, the page
drawn into sheet `⌊g/C⌋`, cell `g mod C` (`C = cols*rows`) is exactly
page `i` of document `D` — the chunk grouping (`neededByDoc`) and the
per-document consumption counters (`consumedByDoc`) attribute every
placement to the right source page. -/
theorem C1_page_consumption (load : Bytes → LoadResult) (files : List InputFile)
    (o : ImpositionOptions) (g : Nat)
    (hg : g < (allPagesOf load files).length) :
    ∃ S : List Sheet, (impose8up load files o).pdfBytes = some S ∧
      (((S.getD (g / ((gridCR o.layout).1 * (gridCR o.layout).2)) default).placements.getD
          (g % ((gridCR o.layout).1 * (gridCR o.layout).2)) default).docId
        = ((allPagesOf load files).getD g default).docId ∧
       ((S.getD (g / ((gridCR o.layout).1 * (gridCR o.layout).2)) default).placements.getD
          (g % ((gridCR o.layout).1 * (gridCR o.layout).2)) default).pageIndex
        = ((allPagesOf load files).getD g default).pageIndex ∧
       ((S.getD (g / ((gridCR o.layout).1 * (gridCR o.layout).2)) default).placements.getD
          (g % ((gridCR o.layout).1 * (gridCR o.layout).2)) default).src
        = ((allPagesOf load files).getD g default).doc.pages.getD
            ((allPagesOf load files).getD g default).pageIndex default) := by
  refine ⟨sheetsOf load files o, ?_, ?_⟩
  · rw [impose8up]
    rw [if_neg (by omega)]
  · rw [perSheet_eq, sheetsOf_getD load files o g hg]
    exact ⟨rfl, rfl, rfl⟩

/-- C2. Sheet partition: with `N ≥ 1` valid pages and capacity
`C = cols*rows`, the output has exactly `⌈N/C⌉` sheets, every sheet but
the last holds exactly `C` placed pages, the last holds
`N - C*(sheetCount-1)`, and the reported `sheets` field equals the sheet
count. -/
theorem C2_sheet_partition (load : Bytes → LoadResult) (files : List InputFile)
    (o : ImpositionOptions)
    (hN : 1 ≤ (allPagesOf load files).length) :
    ∃ S : List Sheet, (impose8up load files o).pdfBytes = some S ∧
      S.length = ((allPagesOf load files).length
          + (gridCR o.layout).1 * (gridCR o.layout).2 - 1)
          / ((gridCR o.layout).1 * (gridCR o.layout).2) ∧
      (impose8up load files o).sheets = some S.length ∧
      (∀ k, k + 1 < S.length →
        ((S.getD k default).placements).length
          = (gridCR o.layout).1 * (gridCR o.layout).2) ∧
      ((S.getD (S.length - 1) default).placements).length
        = (allPagesOf load files).length
          - (gridCR o.layout).1 * (gridCR o.layout).2 * (S.length - 1) := by
  have hps := perSheet_eq o.layout
  have hlenS := sheetsOf_length load files o
  refine ⟨sheetsOf load files o, ?_, ?_, ?_, ?_, ?_⟩
  · rw [impose8up, if_neg (by omega)]
  · rw [hps, hlenS]
    omega
  · rw [impose8up, if_neg (by omega)]
  · intro k hk
    rw [hps]
    rw [hlenS] at hk
    have hidx : k < (chunksOf 8 (allPagesOf load files)).length := by
      rw [chunksOf_length8]; omega
    rw [sheetsOf_getD_eq load files o k hidx, makeSheet_placements_length,
      chunksOf_getD8]
    simp only [List.length_take, List.length_drop]
    omega
  · rw [hps]
    have hidx : (sheetsOf load files o).length - 1
        < (chunksOf 8 (allPagesOf load files)).length := by
      rw [chunksOf_length8]; rw [hlenS]; omega
    rw [sheetsOf_getD_eq load files o _ hidx, makeSheet_placements_length,
      chunksOf_getD8]
    simp only [List.length_take, List.length_drop]
    rw [hlenS]
    omega

/-! ### Geometry and placement claims -/

/-- C3. Geometry: the sheet starts from the paper kind's canonical axis
lengths (A4 = 595×842 pt, A3 = 842×1191 pt), swapped for landscape; each
axis's cell length is (sheet length − 2·margin − (cells−1)·gap)/cells,
independently per axis, with margin/gap converted from mm at 72/25.4;
and the cell for row `r`, column `c` (row-major slot `j`) sits at
x = margin + c·(cellW+gap) and y = sheetH − margin − (r+1)·cellH − r·gap
(bottom-left origin, so row 0 is visually topmost). -/
theorem C3_geometry (o : ImpositionOptions) (j r c : Nat)
    (_hm0 : 0 ≤ o.margin_mm) (_hm1 : o.margin_mm ≤ 50)
    (_hg0 : 0 ≤ o.gap_mm) (_hg1 : o.gap_mm ≤ 50)
    (hr : r = j / (gridCR o.layout).1) (hc : c = j % (gridCR o.layout).1) :
    sheetWH o = (if o.orientation = .landscape
        then ((PAPER_SIZES o.paper).2, (PAPER_SIZES o.paper).1)
        else PAPER_SIZES o.paper) ∧
    PAPER_SIZES .A4 = (595, 842) ∧ PAPER_SIZES .A3 = (842, 1191) ∧
    cellW o = ((sheetWH o).1 - 2 * (o.margin_mm * (72 / 25.4))
        - (((gridCR o.layout).1 : ℚ) - 1) * (o.gap_mm * (72 / 25.4)))
        / ((gridCR o.layout).1 : ℚ) ∧
    cellH o = ((sheetWH o).2 - 2 * (o.margin_mm * (72 / 25.4))
        - (((gridCR o.layout).2 : ℚ) - 1) * (o.gap_mm * (72 / 25.4)))
        / ((gridCR o.layout).2 : ℚ) ∧
    (cellPos o j).1
      = o.margin_mm * (72 / 25.4) + (c : ℚ) * (cellW o + o.gap_mm * (72 / 25.4)) ∧
    (cellPos o j).2
      = (sheetWH o).2 - o.margin_mm * (72 / 25.4) - ((r : ℚ) + 1) * cellH o
          - (r : ℚ) * (o.gap_mm * (72 / 25.4)) := by
  subst hr hc
  refine ⟨rfl, rfl, rfl, ?_, ?_, ?_, ?_⟩ <;>
    simp [cellW, cellH, cellPos, cellX, cellY, marginPt, gapPt, MM_TO_PT]

/-- Concrete instance of the geometry claim: A4 portrait 4×2 with the
default 6 mm margin and 3 mm gap, slot 5 = row 1, column 1. -/
theorem C3_geometry_witness :
    cellW ⟨.A4, .portrait, .l4x2, 6, 3⟩
        = ((sheetWH ⟨.A4, .portrait, .l4x2, 6, 3⟩).1 - 2 * ((6 : ℚ) * (72 / 25.4))
            - ((4 : ℚ) - 1) * ((3 : ℚ) * (72 / 25.4))) / (4 : ℚ) ∧
    (cellPos ⟨.A4, .portrait, .l4x2, 6, 3⟩ 5).1
        = (6 : ℚ) * (72 / 25.4)
            + (1 : ℚ) * (cellW ⟨.A4, .portrait, .l4x2, 6, 3⟩ + (3 : ℚ) * (72 / 25.4)) := by
  have h := C3_geometry ⟨.A4, .portrait, .l4x2, 6, 3⟩ 5 1 1
    (by norm_num) (by norm_num) (by norm_num) (by norm_num) (by decide) (by decide)
  exact ⟨h.2.2.2.1, h.2.2.2.2.2.1⟩

/-- C4. Scale-and-center placement: drawn size is the native size times
`s = min(cellW/pageW, cellH/pageH)`; aspect ratio is preserved; the
scaled page fits entirely inside its cell; and the drawn origin is the
cell origin plus half the leftover space on each axis. -/
theorem C4_scale_center (o : ImpositionOptions) (j : Nat) (src : PdfPage)
    (hw : 0 < src.width) (hh : 0 < src.height)
    (hcw : 0 < cellW o) (hch : 0 < cellH o) :
    (placeRect o j src).width
        = src.width * min (cellW o / src.width) (cellH o / src.height) ∧
    (placeRect o j src).height
        = src.height * min (cellW o / src.width) (cellH o / src.height) ∧
    (placeRect o j src).width / (placeRect o j src).height
        = src.width / src.height ∧
    (placeRect o j src).x
        = (cellPos o j).1 + (cellW o - (placeRect o j src).width) / 2 ∧
    (placeRect o j src).y
        = (cellPos o j).2 + (cellH o - (placeRect o j src).height) / 2 ∧
    (placeRect o j src).x - (cellPos o j).1
        = ((cellPos o j).1 + cellW o)
            - ((placeRect o j src).x + (placeRect o j src).width) ∧
    (placeRect o j src).y - (cellPos o j).2
        = ((cellPos o j).2 + cellH o)
            - ((placeRect o j src).y + (placeRect o j src).height) ∧
    (cellPos o j).1 ≤ (placeRect o j src).x ∧
    (placeRect o j src).x + (placeRect o j src).width ≤ (cellPos o j).1 + cellW o ∧
    (cellPos o j).2 ≤ (placeRect o j src).y ∧
    (placeRect o j src).y + (placeRect o j src).height
        ≤ (cellPos o j).2 + cellH o := by
  have hspos : 0 < min (cellW o / src.width) (cellH o / src.height) :=
    lt_min (div_pos hcw hw) (div_pos hch hh)
  have hWle : src.width * min (cellW o / src.width) (cellH o / src.height)
      ≤ cellW o := by
    calc src.width * min (cellW o / src.width) (cellH o / src.height)
        ≤ src.width * (cellW o / src.width) :=
          mul_le_mul_of_nonneg_left (min_le_left _ _) hw.le
      _ = cellW o := by field_simp
  have hHle : src.height * min (cellW o / src.width) (cellH o / src.height)
      ≤ cellH o := by
    calc src.height * min (cellW o / src.width) (cellH o / src.height)
        ≤ src.height * (cellH o / src.height) :=
          mul_le_mul_of_nonneg_left (min_le_right _ _) hh.le
      _ = cellH o := by field_simp
  have hrect : placeRect o j src =
      ⟨(cellPos o j).1 + (cellW o
          - src.width * min (cellW o / src.width) (cellH o / src.height)) / 2,
       (cellPos o j).2 + (cellH o
          - src.height * min (cellW o / src.width) (cellH o / src.height)) / 2,
       src.width * min (cellW o / src.width) (cellH o / src.height),
       src.height * min (cellW o / src.width) (cellH o / src.height)⟩ := rfl
  rw [hrect]
  refine ⟨rfl, rfl, ?_, rfl, rfl, by ring, by ring, by linarith, by linarith,
    by linarith, by linarith⟩
  rw [mul_comm src.width _, mul_comm src.height _,
    mul_div_mul_left _ _ (ne_of_gt hspos)]

/-- Concrete instance of the scale-and-center claim: an A4 page placed
into cell 0 of an A4 portrait 4×2 sheet with no margin/gap. -/
theorem C4_scale_center_witness :
    (0 : ℚ) < (⟨595, 842⟩ : PdfPage).width ∧
    (0 : ℚ) < cellW ⟨.A4, .portrait, .l4x2, 0, 0⟩ ∧
    (placeRect ⟨.A4, .portrait, .l4x2, 0, 0⟩ 0 ⟨595, 842⟩).width
        = (595 : ℚ) * min (cellW ⟨.A4, .portrait, .l4x2, 0, 0⟩ / 595)
            (cellH ⟨.A4, .portrait, .l4x2, 0, 0⟩ / 842) :=
  ⟨by norm_num,
    by
      have h : sheetWH ⟨.A4, .portrait, .l4x2, 0, 0⟩ = (595, 842) := rfl
      norm_num [cellW, h, marginPt, gapPt, MM_TO_PT, gridCR],
    (C4_scale_center ⟨.A4, .portrait, .l4x2, 0, 0⟩ 0 ⟨595, 842⟩
      (by norm_num) (by norm_num)
      (by
        have h : sheetWH ⟨.A4, .portrait, .l4x2, 0, 0⟩ = (595, 842) := rfl
        norm_num [cellW, h, marginPt, gapPt, MM_TO_PT, gridCR])
      (by
        have h : sheetWH ⟨.A4, .portrait, .l4x2, 0, 0⟩ = (595, 842) := rfl
        norm_num [cellH, h, marginPt, gapPt, MM_TO_PT, gridCR])).1⟩

/-! ### Flattening order -/

/-- The strict order in which flattened refs must appear: earlier input,
or same input with smaller page index. -/
def pageOrder (a b : PageRef) : Prop :=
  a.docId < b.docId ∨ (a.docId = b.docId ∧ a.pageIndex < b.pageIndex)

theorem mem_docPages {p : PageRef} {i : Nat} {d : PdfDoc}
    (h : p ∈ docPages i d) :
    p.docId = i ∧ p.doc = d ∧ p.pageIndex < d.pages.length := by
  simp only [docPages, List.mem_map, List.mem_range] at h
  obtain ⟨k, hk, rfl⟩ := h
  exact ⟨rfl, rfl, hk⟩

theorem mem_flattenSpec_ge (load : Bytes → LoadResult) :
    ∀ (files : List InputFile) (idx : Nat) (p : PageRef),
      p ∈ flattenSpec load files idx → idx ≤ p.docId
  | [], _, p, h => absurd h (by simp [flattenSpec])
  | f :: rest, idx, p, h => by
    rw [flattenSpec, List.mem_append] at h
    rcases h with h | h
    · cases hacc : acceptDoc load f with
      | none => rw [hacc] at h; simp at h
      | some d =>
        rw [hacc] at h
        exact (mem_docPages h).1.ge
    · have := mem_flattenSpec_ge load rest (idx + 1) p h
      omega

theorem docPages_pairwise (i : Nat) (d : PdfDoc) :
    (docPages i d).Pairwise pageOrder := by
  rw [docPages, List.pairwise_map]
  exact (List.pairwise_lt_range d.pages.length).imp
    (fun h => Or.inr ⟨rfl, h⟩)

theorem flattenSpec_pairwise (load : Bytes → LoadResult) :
    ∀ (files : List InputFile) (idx : Nat),
      (flattenSpec load files idx).Pairwise pageOrder
  | [], _ => List.Pairwise.nil
  | f :: rest, idx => by
    rw [flattenSpec, List.pairwise_append]
    refine ⟨?_, flattenSpec_pairwise load rest (idx + 1), ?_⟩
    · cases hacc : acceptDoc load f with
      | none => exact List.Pairwise.nil
      | some d => exact docPages_pairwise idx d
    · intro a ha b hb
      have hb' : idx + 1 ≤ b.docId := mem_flattenSpec_ge load rest (idx + 1) b hb
      cases hacc : acceptDoc load f with
      | none => rw [hacc] at ha; simp at ha
      | some d =>
        rw [hacc] at ha
        have := (mem_docPages ha).1
        exact Or.inl (by omega)

/-- C5. Flattening order invariant: the flattened list is exactly the
concatenation, in supplied input order, of each accepted document's
pages in increasing page-index order, and positions respect that order —
any page of an earlier accepted document sits at a strictly earlier
global position (hence earlier sheet/cell) than any page of a later one,
and pages of one document keep increasing page index. -/
theorem C5_flattening_order (load : Bytes → LoadResult) (files : List InputFile)
    (g1 g2 : Nat)
    (h1 : g1 < (allPagesOf load files).length)
    (h2 : g2 < (allPagesOf load files).length)
    (hlt : g1 < g2) :
    allPagesOf load files = flattenSpec load files 0 ∧
    pageOrder ((allPagesOf load files).getD g1 default)
      ((allPagesOf load files).getD g2 default) := by
  refine ⟨allPagesOf_eq load files, ?_⟩
  have hpw : (allPagesOf load files).Pairwise pageOrder := by
    rw [allPagesOf_eq]; exact flattenSpec_pairwise load files 0
  rw [List.getD_eq_getElem _ _ h1, List.getD_eq_getElem _ _ h2]
  exact List.pairwise_iff_getElem.mp hpw g1 g2 h1 h2 hlt

/-! ### Concrete test fixtures -/

/-- A 1024-byte buffer with a valid `%PDF-` magic. -/
def pdfBytes1 : Bytes := [0x25, 0x50, 0x44, 0x46, 0x2d] ++ List.replicate 1019 0

/-- A second, distinct 1024-byte buffer with a valid `%PDF-` magic. -/
def pdfBytes2 : Bytes := [0x25, 0x50, 0x44, 0x46, 0x2d] ++ List.replicate 1018 0 ++ [1]

/-- A one-page document. -/
def docA : PdfDoc := ⟨[⟨595, 842⟩]⟩

/-- A three-page document. -/
def docB : PdfDoc := ⟨[⟨595, 842⟩, ⟨612, 792⟩, ⟨595, 842⟩]⟩

/-- A concrete parser: recognizes the two fixture buffers, errors on
anything else. -/
def testLoad : Bytes → LoadResult := fun b =>
  if b = pdfBytes1 then .ok docA
  else if b = pdfBytes2 then .ok docB
  else .err "load error"

def fileA : InputFile := ⟨"a.pdf", pdfBytes1⟩

def fileB : InputFile := ⟨"b.pdf", pdfBytes2⟩

/-- The route handler's default options: A4 landscape 4×2, 6 mm margin,
3 mm gap. -/
def optsDefault : ImpositionOptions := ⟨.A4, .landscape, .l4x2, 6, 3⟩

set_option maxRecDepth 100000 in
/-- Concrete instance of the page-consumption claim: global position 1
(the first page of the three-page second document, sharing sheet 0 with
the one-page first document). -/
theorem C1_page_consumption_witness :
    1 < (allPagesOf testLoad [fileA, fileB]).length ∧
    (∃ S : List Sheet, (impose8up testLoad [fileA, fileB] optsDefault).pdfBytes = some S ∧
      (((S.getD (1 / ((gridCR optsDefault.layout).1 * (gridCR optsDefault.layout).2))
            default).placements.getD
          (1 % ((gridCR optsDefault.layout).1 * (gridCR optsDefault.layout).2)) default).docId
        = ((allPagesOf testLoad [fileA, fileB]).getD 1 default).docId ∧
       ((S.getD (1 / ((gridCR optsDefault.layout).1 * (gridCR optsDefault.layout).2))
            default).placements.getD
          (1 % ((gridCR optsDefault.layout).1 * (gridCR optsDefault.layout).2)) default).pageIndex
        = ((allPagesOf testLoad [fileA, fileB]).getD 1 default).pageIndex ∧
       ((S.getD (1 / ((gridCR optsDefault.layout).1 * (gridCR optsDefault.layout).2))
            default).placements.getD
          (1 % ((gridCR optsDefault.layout).1 * (gridCR optsDefault.layout).2)) default).src
        = ((allPagesOf testLoad [fileA, fileB]).getD 1 default).doc.pages.getD
            ((allPagesOf testLoad [fileA, fileB]).getD 1 default).pageIndex default)) :=
  ⟨by decide, C1_page_consumption testLoad [fileA, fileB] optsDefault 1 (by decide)⟩

set_option maxRecDepth 100000 in
/-- Concrete instance of the sheet-partition claim: 4 valid pages on an
8-cell grid give a single, partially filled sheet. -/
theorem C2_sheet_partition_witness :
    1 ≤ (allPagesOf testLoad [fileA, fileB]).length ∧
    (∃ S : List Sheet, (impose8up testLoad [fileA, fileB] optsDefault).pdfBytes = some S ∧
      S.length = ((allPagesOf testLoad [fileA, fileB]).length
          + (gridCR optsDefault.layout).1 * (gridCR optsDefault.layout).2 - 1)
          / ((gridCR optsDefault.layout).1 * (gridCR optsDefault.layout).2) ∧
      (impose8up testLoad [fileA, fileB] optsDefault).sheets = some S.length ∧
      (∀ k, k + 1 < S.length →
        ((S.getD k default).placements).length
          = (gridCR optsDefault.layout).1 * (gridCR optsDefault.layout).2) ∧
      ((S.getD (S.length - 1) default).placements).length
        = (allPagesOf testLoad [fileA, fileB]).length
          - (gridCR optsDefault.layout).1 * (gridCR optsDefault.layout).2 * (S.length - 1)) :=
  ⟨by decide, C2_sheet_partition testLoad [fileA, fileB] optsDefault (by decide)⟩

set_option maxRecDepth 100000 in
/-- Concrete instance of the flattening-order claim: positions 0 and 1
of the fixture run. -/
theorem C5_flattening_order_witness :
    allPagesOf testLoad [fileA, fileB] = flattenSpec testLoad [fileA, fileB] 0 ∧
    pageOrder ((allPagesOf testLoad [fileA, fileB]).getD 0 default)
      ((allPagesOf testLoad [fileA, fileB]).getD 1 default) :=
  C5_flattening_order testLoad [fileA, fileB] 0 1 (by decide) (by decide) (by decide)

/-! ### Validator, failure aggregation, determinism -/

def fileTiny : InputFile := ⟨"tiny.pdf", [0x25]⟩

/-- Counterexample to the claimed pre-check rejection string: a one-byte
input is rejected, but the recorded reason is
"Not a valid PDF (bad header or too small)", not the claimed
"Not a valid document (bad header or too small)". -/
theorem C6_validator_counterexample :
    (badOf testLoad [fileTiny]).getD 0 default
        = ⟨"tiny.pdf", "Not a valid PDF (bad header or too small)"⟩ ∧
    ((badOf testLoad [fileTiny]).getD 0 default).error
        ≠ "Not a valid document (bad header or too small)" :=
  ⟨by decide, by decide⟩

/-- C6 (amended). Validator rejection contract: an input is rejected iff
its buffer is under 1024 bytes, its first five bytes are not `%PDF-`,
the parse fails, or the parsed document has zero pages; the recorded
reason is "Not a valid PDF (bad header or too small)" for the size/magic
pre-check, the parser's message for parse failures, and "0 pages" for
zero-page documents; rejected inputs produce exactly the `badSpec`
records and accepted inputs contribute all their pages. -/
theorem C6_validator_rejection (load : Bytes → LoadResult)
    (files : List InputFile) (f : InputFile) :
    badOf load files = badSpec load files ∧
    allPagesOf load files = flattenSpec load files 0 ∧
    ((acceptDoc load f).isNone ↔ (rejectReason load f).isSome) ∧
    rejectReason load f =
      (if f.data.length < 1024 ∨ ¬ f.data.take 5 = [0x25, 0x50, 0x44, 0x46, 0x2d]
       then some "Not a valid PDF (bad header or too small)"
       else match load f.data with
         | .err m => some m
         | .ok d => if d.pages.length = 0 then some "0 pages" else none) := by
  refine ⟨badOf_eq load files, allPagesOf_eq load files,
    acceptDoc_isNone_iff_rejectReason_isSome load f, ?_⟩
  have hiff := isProbablyPdf_iff f.data
  by_cases hp : isProbablyPdf f.data = true
  · have hc := hiff.mp hp
    rw [if_neg (by push_neg; exact ⟨by omega, hc.2⟩)]
    simp only [rejectReason, hp, Bool.not_true, Bool.false_eq_true, if_false]
  · have hp' : isProbablyPdf f.data = false := by
      simpa using hp
    have hcond : f.data.length < 1024 ∨ ¬ f.data.take 5 = [0x25, 0x50, 0x44, 0x46, 0x2d] := by
      by_contra hcon
      push_neg at hcon
      exact hp (hiff.mpr ⟨by omega, hcon.2⟩)
    rw [if_pos hcond]
    simp [rejectReason, hp']

theorem flattenSpec_nil_of_all_rejected (load : Bytes → LoadResult) :
    ∀ (files : List InputFile) (idx : Nat),
      (∀ f ∈ files, acceptDoc load f = none) → flattenSpec load files idx = []
  | [], _, _ => rfl
  | f :: rest, idx, hall => by
    rw [flattenSpec, hall f (by simp),
      flattenSpec_nil_of_all_rejected load rest (idx + 1)
        (fun g hg => hall g (by simp [hg]))]
    rfl

theorem badSpec_length_of_all_rejected (load : Bytes → LoadResult) :
    ∀ (files : List InputFile),
      (∀ f ∈ files, acceptDoc load f = none) →
        (badSpec load files).length = files.length
  | [], _ => rfl
  | f :: rest, hall => by
    have hrej : (rejectReason load f).isSome :=
      (acceptDoc_isNone_iff_rejectReason_isSome load f).mp
        (by rw [hall f (by simp)]; rfl)
    obtain ⟨m, hm⟩ := Option.isSome_iff_exists.mp hrej
    rw [badSpec, hm]
    simp only [List.length_append, List.length_cons, List.length_nil]
    rw [badSpec_length_of_all_rejected load rest (fun g hg => hall g (by simp [hg]))]
    omega

/-- C8. Zero-valid-input fatal failure: when every supplied input is
rejected (including the empty list), the run returns `success = false`
with the human-readable error set, no output bytes, and `total_bad`
equal to the number of supplied inputs. -/
theorem C8_zero_valid_fatal (load : Bytes → LoadResult) (files : List InputFile)
    (o : ImpositionOptions)
    (hall : ∀ f ∈ files, acceptDoc load f = none) :
    (impose8up load files o).success = false ∧
    (impose8up load files o).error = some "Aucun PDF valide n'a pu être ouvert." ∧
    (impose8up load files o).pdfBytes = none ∧
    (impose8up load files o).total_bad = files.length := by
  have hnil : allPagesOf load files = [] := by
    rw [allPagesOf_eq]
    exact flattenSpec_nil_of_all_rejected load files 0 hall
  have hlen0 : (allPagesOf load files).length = 0 := by rw [hnil]; rfl
  rw [impose8up, if_pos hlen0]
  refine ⟨rfl, rfl, rfl, ?_⟩
  rw [badOf_eq]
  exact badSpec_length_of_all_rejected load files hall

def fileJunk1 : InputFile := ⟨"j1.bin", [0, 1, 2]⟩

def fileJunk2 : InputFile := ⟨"j2.bin", List.replicate 1100 0⟩

set_option maxRecDepth 100000 in
/-- Concrete instance of the zero-valid-input claim: two rejected inputs
(one too small, one with a bad magic). -/
theorem C8_zero_valid_fatal_witness :
    (∀ f ∈ [fileJunk1, fileJunk2], acceptDoc testLoad f = none) ∧
    (impose8up testLoad [fileJunk1, fileJunk2] optsDefault).success = false ∧
    (impose8up testLoad [fileJunk1, fileJunk2] optsDefault).error
        = some "Aucun PDF valide n'a pu être ouvert." ∧
    (impose8up testLoad [fileJunk1, fileJunk2] optsDefault).pdfBytes = none ∧
    (impose8up testLoad [fileJunk1, fileJunk2] optsDefault).total_bad
        = ([fileJunk1, fileJunk2] : List InputFile).length :=
  ⟨by decide,
    C8_zero_valid_fatal testLoad [fileJunk1, fileJunk2] optsDefault (by decide)⟩

/-- C9. Bad-file aggregation cap: in every result, `bad_files` is exactly
the first `min(totalBad, 50)` rejection records in the order the rejected
inputs were encountered, while `total_bad` is the true rejection count. -/
theorem C9_bad_file_cap (load : Bytes → LoadResult) (files : List InputFile)
    (o : ImpositionOptions) :
    (impose8up load files o).bad_files = (badOf load files).take 50 ∧
    (impose8up load files o).total_bad = (badOf load files).length ∧
    (impose8up load files o).bad_files.length
        = min 50 (impose8up load files o).total_bad ∧
    badOf load files = badSpec load files := by
  have h : (impose8up load files o).bad_files = (badOf load files).take 50 ∧
      (impose8up load files o).total_bad = (badOf load files).length := by
    rw [impose8up]
    split <;> exact ⟨rfl, rfl⟩
  refine ⟨h.1, h.2, ?_, badOf_eq load files⟩
  rw [h.1, h.2, List.length_take]

theorem flattenGo_congr (load1 load2 : Bytes → LoadResult) :
    ∀ (files : List InputFile) (idx : Nat),
      (∀ f ∈ files, load1 f.data = load2 f.data) →
        flattenGo load1 files idx = flattenGo load2 files idx
  | [], _, _ => rfl
  | f :: rest, idx, h => by
    have hrec := flattenGo_congr load1 load2 rest (idx + 1)
      (fun g hg => h g (by simp [hg]))
    simp only [flattenGo, hrec, h f (by simp)]

/-- C10. Determinism of reported metadata: two invocations with equal
input lists and options — and parsers that agree on those inputs' byte
buffers — report the same success flag, `total_pages`, `sheets`,
`bad_files` and `total_bad`. -/
theorem C10_metadata_determinism (load1 load2 : Bytes → LoadResult)
    (files : List InputFile) (o : ImpositionOptions)
    (h : ∀ f ∈ files, load1 f.data = load2 f.data) :
    (impose8up load1 files o).success = (impose8up load2 files o).success ∧
    (impose8up load1 files o).total_pages = (impose8up load2 files o).total_pages ∧
    (impose8up load1 files o).sheets = (impose8up load2 files o).sheets ∧
    (impose8up load1 files o).bad_files = (impose8up load2 files o).bad_files ∧
    (impose8up load1 files o).total_bad = (impose8up load2 files o).total_bad := by
  have hgo : flattenGo load1 files 0 = flattenGo load2 files 0 :=
    flattenGo_congr load1 load2 files 0 h
  have hAll : allPagesOf load1 files = allPagesOf load2 files := by
    rw [allPagesOf, allPagesOf, hgo]
  have hBad : badOf load1 files = badOf load2 files := by
    rw [badOf, badOf, hgo]
  have heq : impose8up load1 files o = impose8up load2 files o := by
    rw [impose8up, impose8up, sheetsOf, sheetsOf, hAll, hBad]
  rw [heq]
  exact ⟨rfl, rfl, rfl, rfl, rfl⟩

/-- A parser that agrees with `testLoad` on `fileJunk1`'s bytes but
differs elsewhere. -/
def loadOther : Bytes → LoadResult := fun b =>
  if b = [0, 1, 2] then .err "load error" else .ok docA

set_option maxRecDepth 100000 in
/-- Concrete instance of the metadata-determinism claim. -/
theorem C10_metadata_determinism_witness :
    (∀ f ∈ [fileJunk1], testLoad f.data = loadOther f.data) ∧
    (impose8up testLoad [fileJunk1] optsDefault).success
        = (impose8up loadOther [fileJunk1] optsDefault).success :=
  ⟨by decide,
    (C10_metadata_determinism testLoad loadOther [fileJunk1] optsDefault
      (by decide)).1⟩

/-! ### Partial-failure idempotence -/

/-- The sublist of inputs that survive validation. -/
def goodFiles (load : Bytes → LoadResult) (files : List InputFile) : List InputFile :=
  files.filter (fun f => (acceptDoc load f).isSome)

/-- A page ref up to document identity: the parsed document value and
the page index inside it. -/
def stripRef (p : PageRef) : PdfDoc × Nat := (p.doc, p.pageIndex)

/-- A placement up to document identity: source page index, source page,
and drawn rectangle. -/
def stripPlacement (q : Placement) : Nat × PdfPage × Rect :=
  (q.pageIndex, q.src, q.rect)

/-- A sheet up to document identity. -/
def stripSheet (s : Sheet) : ℚ × ℚ × List (Nat × PdfPage × Rect) :=
  (s.width, s.height, s.placements.map stripPlacement)

theorem docPages_map_stripRef (i : Nat) (d : PdfDoc) :
    (docPages i d).map stripRef
      = (List.range d.pages.length).map (fun k => (d, k)) := by
  rw [docPages, List.map_map]
  rfl

theorem flattenSpec_filter_strip (load : Bytes → LoadResult) :
    ∀ (files : List InputFile) (i j : Nat),
      (flattenSpec load files i).map stripRef
        = (flattenSpec load (goodFiles load files) j).map stripRef
  | [], _, _ => rfl
  | f :: rest, i, j => by
    cases hacc : acceptDoc load f with
    | none =>
      have hg : goodFiles load (f :: rest) = goodFiles load rest := by
        simp [goodFiles, List.filter_cons, hacc]
      rw [hg, flattenSpec, hacc]
      simpa using flattenSpec_filter_strip load rest (i + 1) j
    | some d =>
      have hg : goodFiles load (f :: rest) = f :: goodFiles load rest := by
        simp [goodFiles, List.filter_cons, hacc]
      rw [hg, flattenSpec, flattenSpec, hacc]
      simp only [List.map_append]
      rw [docPages_map_stripRef, docPages_map_stripRef,
        flattenSpec_filter_strip load rest (i + 1) (j + 1)]

theorem stripPlacement_mkPlacement (o : ImpositionOptions) (n : Nat)
    (p q : PageRef) (h : stripRef p = stripRef q) :
    stripPlacement (mkPlacement o n p) = stripPlacement (mkPlacement o n q) := by
  have hd : p.doc = q.doc := congrArg Prod.fst h
  have hi : p.pageIndex = q.pageIndex := congrArg Prod.snd h
  simp [stripPlacement, mkPlacement, hd, hi]

theorem stripSheet_makeSheet (o : ImpositionOptions) (c1 c2 : List PageRef)
    (h : c1.map stripRef = c2.map stripRef) :
    stripSheet (makeSheet o c1) = stripSheet (makeSheet o c2) := by
  have hlen : c1.length = c2.length := by
    have := congrArg List.length h
    simpa using this
  have hpl : (makeSheet o c1).placements.map stripPlacement
      = (makeSheet o c2).placements.map stripPlacement := by
    apply List.ext_getElem
    · rw [List.length_map, List.length_map,
        makeSheet_placements_length, makeSheet_placements_length, hlen]
    · intro n h1 h2
      have hn1 : n < (makeSheet o c1).placements.length := by
        simpa using h1
      have hn2 : n < (makeSheet o c2).placements.length := by
        simpa using h2
      have hc1 : n < c1.length := by
        rwa [makeSheet_placements_length] at hn1
      have hc2 : n < c2.length := by
        rwa [makeSheet_placements_length] at hn2
      simp only [List.getElem_map]
      rw [← List.getD_eq_getElem _ default hn1, ← List.getD_eq_getElem _ default hn2,
        makeSheet_placements_getD o c1 n hc1, makeSheet_placements_getD o c2 n hc2]
      apply stripPlacement_mkPlacement
      have hs1 : stripRef (c1.getD n default) = (c1.map stripRef).getD n (stripRef default) := by
        rw [List.getD_eq_getElem _ _ hc1,
          List.getD_eq_getElem _ _ (by simpa using hc1), List.getElem_map]
      have hs2 : stripRef (c2.getD n default) = (c2.map stripRef).getD n (stripRef default) := by
        rw [List.getD_eq_getElem _ _ hc2,
          List.getD_eq_getElem _ _ (by simpa using hc2), List.getElem_map]
      rw [hs1, hs2, h]
  simp only [stripSheet]
  rw [hpl]
  rfl

/-- C7. Partial-failure idempotence: running the engine on the sublist
obtained by deleting exactly the rejected inputs yields the same
flattened page sequence (up to document identity), the same success
flag, page and sheet counts, and sheet-by-sheet, cell-by-cell identical
placements (same source page index, same source page size, same drawn
rectangle). -/
theorem C7_partial_failure (load : Bytes → LoadResult) (files : List InputFile)
    (o : ImpositionOptions) :
    ((allPagesOf load files).map stripRef
        = (allPagesOf load (goodFiles load files)).map stripRef) ∧
    (impose8up load files o).success
        = (impose8up load (goodFiles load files) o).success ∧
    (impose8up load files o).total_pages
        = (impose8up load (goodFiles load files) o).total_pages ∧
    (impose8up load files o).sheets
        = (impose8up load (goodFiles load files) o).sheets ∧
    ((impose8up load files o).pdfBytes.map (fun S => S.map stripSheet)
        = (impose8up load (goodFiles load files) o).pdfBytes.map
            (fun S => S.map stripSheet)) := by
  have hstrip : (allPagesOf load files).map stripRef
      = (allPagesOf load (goodFiles load files)).map stripRef := by
    rw [allPagesOf_eq, allPagesOf_eq]
    exact flattenSpec_filter_strip load files 0 0
  have hN : (allPagesOf load files).length
      = (allPagesOf load (goodFiles load files)).length := by
    have := congrArg List.length hstrip
    simpa using this
  have hsheets : (sheetsOf load files o).map stripSheet
      = (sheetsOf load (goodFiles load files) o).map stripSheet := by
    apply List.ext_getElem
    · rw [List.length_map, List.length_map, sheetsOf_length, sheetsOf_length, hN]
    · intro n h1 h2
      have b1 : n < (chunksOf 8 (allPagesOf load files)).length := by
        rw [chunksOf_length8]
        have := h1
        rw [List.length_map, sheetsOf_length] at this
        omega
      have b2 : n < (chunksOf 8 (allPagesOf load (goodFiles load files))).length := by
        rw [chunksOf_length8]
        have := h2
        rw [List.length_map, sheetsOf_length] at this
        omega
      have e1 : n < (sheetsOf load files o).length := by simpa using h1
      have e2 : n < (sheetsOf load (goodFiles load files) o).length := by simpa using h2
      simp only [List.getElem_map]
      rw [← List.getD_eq_getElem _ default e1, ← List.getD_eq_getElem _ default e2,
        sheetsOf_getD_eq load files o n b1,
        sheetsOf_getD_eq load (goodFiles load files) o n b2,
        chunksOf_getD8, chunksOf_getD8]
      apply stripSheet_makeSheet
      rw [List.map_take, List.map_drop, List.map_take, List.map_drop, hstrip]
  refine ⟨hstrip, ?_⟩
  by_cases h0 : (allPagesOf load files).length = 0
  · rw [impose8up, impose8up, if_pos h0, if_pos (by omega)]
    exact ⟨rfl, rfl, rfl, rfl⟩
  · rw [impose8up, impose8up, if_neg h0, if_neg (by omega)]
    refine ⟨rfl, by simpa using hN, ?_, ?_⟩
    · simp only [Option.some.injEq]
      rw [sheetsOf_length, sheetsOf_length, hN]
    · simpa using hsheets

end Impose
